import Mathlib

/-
  Verification of the after-meet background job orchestration layer.

  The definitions below are a shallow embedding of the job scheduling code:
  the Bull-backed JobsService and ScheduledTasksService sweeps, the
  MeetingsService query used by the bot sweep, the content generation
  pipeline, and the social publishing service.  Times are Unix timestamps in
  milliseconds (Int).  External collaborators (the queue backend persistence,
  the OpenAI client, the platform HTTP clients, the TypeORM repositories) are
  passed in as explicit parameters or outcome values.
-/

namespace AfterMeet

/-- Job lifecycle states of the job store (waiting, delayed, active,
completed, failed). -/
inductive JobState where
  | waiting
  | delayed
  | active
  | completed
  | failed
deriving DecidableEq

/-- Backoff strategies: bull.config.ts and the bot, content and posting jobs
use exponential; scheduleCleanup uses fixed. -/
inductive BackoffType where
  | fixed
  | exponential
deriving DecidableEq

/-- A backoff policy: strategy plus base delay in milliseconds, as in the
backoff job option of queue.add. -/
structure BackoffPolicy where
  type : BackoffType
  delay : Nat
deriving DecidableEq

/-- A job record as tracked by a queue.  resourceId is the payload field the
cancel operations compare: data.data.meetingId for the meeting-bot queue and
data.data.socialPostId for the social-posting queue.  Job ids are unique per
queue (Bull assigns fresh ids). -/
structure Job where
  id : Nat
  kind : String
  resourceId : String
  state : JobState
  attemptsMade : Nat
  maxAttempts : Nat
  backoff : BackoffPolicy
  runAt : Int
  failureReason : Option String
deriving DecidableEq

/-- A job state is non-terminal when the job is still pending or running:
waiting, delayed or active. -/
def nonTerminal (s : JobState) : Bool :=
  s == JobState.waiting || s == JobState.delayed || s == JobState.active

namespace JobStore

/-- Modelled from the spec: the retry delay the store computes from the
backoff policy of a job that failed with attemptsMade = k (fixed strategy:
the constant baseDelay; exponential strategy: baseDelay * 2 ^ k).  The store
itself is the Bull queue library, which is not part of this repository. -/
def backoffDelay (p : BackoffPolicy) (attemptsMade : Nat) : Nat :=
  match p.type with
  | BackoffType.fixed => p.delay
  | BackoffType.exponential => p.delay * 2 ^ attemptsMade

/-- Modelled from the spec: fail(jobId, reason) on the claimed (active) job:
if attemptsMade + 1 < maxAttempts, increment attemptsMade, compute the next
runAt from the backoff policy and transition back to delayed; otherwise
transition to failed and stamp failureReason.  The store is the Bull queue
library, which is not part of this repository; only active jobs are failed
by the dispatcher. -/
def fail (j : Job) (now : Int) (reason : String) : Job :=
  if j.state = JobState.active then
    if j.attemptsMade + 1 < j.maxAttempts then
      { j with
          state := JobState.delayed
          attemptsMade := j.attemptsMade + 1
          runAt := now + (backoffDelay j.backoff j.attemptsMade : Int) }
    else
      { j with state := JobState.failed, failureReason := some reason }
  else j

/-- Modelled from the spec: complete(jobId) transitions active to completed.
The store is the Bull queue library, which is not part of this repository. -/
def complete (j : Job) : Job :=
  if j.state = JobState.active then { j with state := JobState.completed } else j

/-- Modelled from the spec: a job is eligible for claiming when it is waiting,
or delayed with runAt at or before now.  The store is the Bull queue library,
which is not part of this repository. -/
def eligibleJob (now : Int) (j : Job) : Bool :=
  j.state == JobState.waiting
    || (j.state == JobState.delayed && decide (j.runAt ≤ now))

/-- Modelled from the spec: claimNext(queueName) selects the oldest eligible
job (list order is arrival order), transitions it to active and returns it.
The store is the Bull queue library, which is not part of this repository. -/
def claimNext (store : List Job) (now : Int) : Option Job × List Job :=
  match store.find? (eligibleJob now) with
  | some j =>
      (some { j with state := JobState.active },
       store.map (fun k => if k.id = j.id then { k with state := JobState.active } else k))
  | none => (none, store)

/-- Modelled from the spec: job.retry() re-submits a failed job so it runs
again, i.e. the failed job returns to the waiting state; any other job is
untouched.  Retry is Bull library behaviour, not part of this repository. -/
def retryJob (j : Job) : Job :=
  if j.state = JobState.failed then { j with state := JobState.waiting } else j

end JobStore

namespace JobsService

/-- JobsService getJobs as used by the cancel operations: the jobs of the
queue whose state is among the requested states. -/
def getJobsIn (store : List Job) (states : List JobState) : List Job :=
  store.filter (fun j => states.contains j.state)

/-- JobsService.scheduleMeetingBot: delay = scheduledTime - now, clamped at
zero; queue.add of a create-bot job with attempts 3 and exponential backoff
with base delay 5000 ms.  Per the store contract the job is inserted delayed
when its runAt is after now and waiting otherwise. -/
def scheduleMeetingBot (store : List Job) (nextId : Nat) (now : Int)
    (meetingId : String) (scheduledTime : Int) : List Job :=
  let delay : Int := max 0 (scheduledTime - now)
  store ++
    [{ id := nextId
       kind := "create-bot"
       resourceId := meetingId
       state := if 0 < delay then JobState.delayed else JobState.waiting
       attemptsMade := 0
       maxAttempts := 3
       backoff := { type := BackoffType.exponential, delay := 5000 }
       runAt := now + delay
       failureReason := none }]

/-- JobsService.cancelMeetingBot: fetch the waiting and delayed jobs of the
meeting-bot queue, remove the first whose payload meetingId matches and
return true; return false when none matches. -/
def cancelMeetingBot (store : List Job) (meetingId : String) : Bool × List Job :=
  match (getJobsIn store [JobState.waiting, JobState.delayed]).find?
      (fun j => j.resourceId == meetingId) with
  | some j => (true, store.filter (fun k => k.id != j.id))
  | none => (false, store)

/-- JobsService.cancelSocialPost: fetch the waiting and delayed jobs of the
social-posting queue, remove the first whose payload socialPostId matches and
return true; return false when none matches. -/
def cancelSocialPost (store : List Job) (socialPostId : String) : Bool × List Job :=
  match (getJobsIn store [JobState.waiting, JobState.delayed]).find?
      (fun j => j.resourceId == socialPostId) with
  | some j => (true, store.filter (fun k => k.id != j.id))
  | none => (false, store)

/-- JobsService.retryFailedJobs: for every failed job of the queue, call
job.retry(); the failed jobs re-enter the waiting state. -/
def retryFailedJobs (store : List Job) : List Job :=
  store.map JobStore.retryJob

end JobsService

/-- Meeting status enum of the Meeting entity. -/
inductive MeetingStatus where
  | scheduled
  | inProgress
  | completed
  | cancelled
deriving DecidableEq

/-- The slice of the Meeting entity read by the orchestration layer. -/
structure Meeting where
  id : String
  userId : String
  title : String
  startTime : Int
  status : MeetingStatus
  recallEnabled : Bool
  recallBotId : Option String
  transcript : Option String
deriving DecidableEq

namespace MeetingsService

/-- MeetingsService.getMeetingsForBotScheduling: windowStart is now plus
timeWindow minutes, windowEnd is windowStart plus 15 minutes; returns the
meetings with recallEnabled, status scheduled, startTime between the bounds
(Between is inclusive) and no recall bot assigned yet. -/
def getMeetingsForBotScheduling (meetings : List Meeting) (now : Int)
    (timeWindow : Int) : List Meeting :=
  let windowStart := now + timeWindow * 60000
  let windowEnd := windowStart + 15 * 60000
  meetings.filter (fun m =>
    m.recallEnabled && m.status == MeetingStatus.scheduled
      && decide (windowStart ≤ m.startTime) && decide (m.startTime ≤ windowEnd)
      && m.recallBotId == none)

end MeetingsService

namespace ScheduledTasksService

/-- The for-loop body of ScheduledTasksService.scheduleUpcomingMeetingBots:
for each selected meeting with recallEnabled, when botScheduleTime (the
meeting start minus 15 minutes) is still after now, schedule the bot job at
botScheduleTime; otherwise the meeting is skipped.  Job ids are assigned from
the current queue length. -/
def scheduleBotsLoop (now : Int) : List Meeting → List Job → List Job
  | [], store => store
  | m :: ms, store =>
    if m.recallEnabled then
      if now < m.startTime - 15 * 60000 then
        scheduleBotsLoop now ms
          (JobsService.scheduleMeetingBot store store.length now m.id
            (m.startTime - 15 * 60000))
      else scheduleBotsLoop now ms store
    else scheduleBotsLoop now ms store

/-- ScheduledTasksService.scheduleUpcomingMeetingBots, one run of the
every-5-minutes sweep: select the meetings via
getMeetingsForBotScheduling(20) and run the scheduling loop over them. -/
def scheduleUpcomingMeetingBots (meetings : List Meeting) (store : List Job)
    (now : Int) : List Job :=
  scheduleBotsLoop now
    (MeetingsService.getMeetingsForBotScheduling meetings now 20) store

/-- The same sweep loop with the enqueue collaborator made fallible: the
whole for-loop of scheduleUpcomingMeetingBots sits inside a single try/catch
whose catch only logs, so an error thrown while handling one meeting aborts
the loop for the remaining meetings of that run.  Returns the meetings whose
loop iteration ran to its end. -/
def sweepIterations (now : Int) (enq : Meeting → Except String Unit) :
    List Meeting → List Meeting
  | [] => []
  | m :: ms =>
    if m.recallEnabled && decide (now < m.startTime - 15 * 60000) then
      match enq m with
      | Except.ok _ => m :: sweepIterations now enq ms
      | Except.error _ => []
    else
      m :: sweepIterations now enq ms

/-- One run of the bot sweep with a fallible enqueue collaborator: the
meetings selected by getMeetingsForBotScheduling(20) whose iteration
completed before the first thrown error aborted the loop. -/
def runBotSweep (meetings : List Meeting) (now : Int)
    (enq : Meeting → Except String Unit) : List Meeting :=
  sweepIterations now enq
    (MeetingsService.getMeetingsForBotScheduling meetings now 20)

end ScheduledTasksService

/-- Social platform enum of the SocialPost entity. -/
inductive SocialPlatform where
  | linkedin
  | facebook
deriving DecidableEq

/-- Post status enum of the SocialPost entity: draft, posted, failed. -/
inductive PostStatus where
  | draft
  | posted
  | failed
deriving DecidableEq

/-- The slice of the SocialPost entity handled by the orchestration layer.
The database assigns ids on insert; freshly created drafts carry the empty
id. -/
structure SocialPost where
  id : String
  meetingId : String
  platform : SocialPlatform
  content : String
  status : PostStatus
  postedAt : Option Int
  platformPostId : Option String
  errorMessage : Option String
deriving DecidableEq

/-- One generated piece of platform content, as collected in the generated
array of a ContentGenerationResult. -/
structure GeneratedContent where
  platform : SocialPlatform
  content : String
deriving DecidableEq

/-- The result object returned by generateContentFromMeeting: overall
success, the per-platform generated content, and the collected errors. -/
structure ContentGenerationResult where
  meetingId : String
  success : Bool
  generated : List GeneratedContent
  errors : List String
deriving DecidableEq

namespace ContentGenerationService

/-- ContentGenerationService.validateMeetingForContentGeneration, after the
meeting has been found: the meeting must have a transcript and the transcript
must be at least 100 characters. -/
def validateMeetingForContentGeneration (m : Meeting) : Except String Meeting :=
  match m.transcript with
  | none => Except.error "Meeting transcript not available"
  | some t =>
    if t.length < 100 then
      Except.error "Meeting transcript too short for meaningful content generation"
    else Except.ok m

/-- The per-platform for-loop of generateContentFromMeeting: each platform
generation is wrapped in its own try/catch; successes are collected in order,
a failure is collected as an error string and the loop continues with the
remaining platforms. -/
def generateForPlatforms (gen : SocialPlatform → Except String String) :
    List SocialPlatform → List GeneratedContent × List String
  | [] => ([], [])
  | p :: ps =>
    let rest := generateForPlatforms gen ps
    match gen p with
    | Except.ok c => (⟨p, c⟩ :: rest.1, rest.2)
    | Except.error e => (rest.1, e :: rest.2)

/-- ContentGenerationService.saveDraftPosts: each generated content is saved
as a SocialPost of the meeting in draft status (each save is in its own
try/catch; saves are modelled as succeeding). -/
def saveDraftPosts (m : Meeting) (generated : List GeneratedContent) :
    List SocialPost :=
  generated.map (fun g =>
    { id := ""
      meetingId := m.id
      platform := g.platform
      content := g.content
      status := PostStatus.draft
      postedAt := none
      platformPostId := none
      errorMessage := none })

/-- ContentGenerationService.generateContentFromMeeting: validate the
meeting, extract insights from the transcript, generate content per platform
collecting per-platform errors without stopping the loop, and save the
successes as draft posts.  A failure before the loop (validation or insight
extraction) is caught by the outer try/catch and returned in the result with
nothing generated and nothing saved.  Returns the result object together
with the draft posts persisted by the run. -/
def generateContentFromMeeting (m : Meeting) (platforms : List SocialPlatform)
    (insights : Except String Unit)
    (gen : SocialPlatform → Except String String) :
    ContentGenerationResult × List SocialPost :=
  match validateMeetingForContentGeneration m with
  | Except.error e =>
      ({ meetingId := m.id, success := false, generated := []
         errors := ["Content generation failed for meeting " ++ m.id ++ ": " ++ e] },
       [])
  | Except.ok m2 =>
    match insights with
    | Except.error e =>
        ({ meetingId := m.id, success := false, generated := []
           errors := ["Content generation failed for meeting " ++ m.id ++ ": " ++ e] },
         [])
    | Except.ok _ =>
      let gp := generateForPlatforms gen platforms
      ({ meetingId := m.id
         success := decide (0 < gp.1.length)
         generated := gp.1
         errors := gp.2 },
       saveDraftPosts m2 gp.1)

end ContentGenerationService

/-- The final state of a Bull job after its handler ran: the handler returned
normally (job completed, carrying the drafts persisted by the run) or threw
(job failed with the thrown reason). -/
inductive JobOutcome where
  | completed (drafts : List SocialPost)
  | failedJob (reason : String)
deriving DecidableEq

namespace ContentGenerationProcessor

/-- ContentGenerationProcessor.handleContentGeneration: throws, failing the
Bull job, only when the meeting is not found or the payload carries no
transcriptUrl; otherwise it awaits the AI pipeline, ignores the returned
result object and returns normally, so the job completes. -/
def handleContentGeneration (meetingFound : Bool)
    (transcriptUrl : Option String) (m : Meeting)
    (platforms : List SocialPlatform) (insights : Except String Unit)
    (gen : SocialPlatform → Except String String) : JobOutcome :=
  if !meetingFound then
    JobOutcome.failedJob ("Meeting " ++ m.id ++ " not found")
  else
    match transcriptUrl with
    | none => JobOutcome.failedJob ("No transcript available for meeting " ++ m.id)
    | some u =>
      if u.length = 0 then
        JobOutcome.failedJob ("No transcript available for meeting " ++ m.id)
      else
        JobOutcome.completed
          (ContentGenerationService.generateContentFromMeeting m platforms
            insights gen).2

end ContentGenerationProcessor

/-- The per-platform result record returned by the publish helpers. -/
structure SocialPostResult where
  platform : SocialPlatform
  success : Bool
  postId : Option String
  error : Option String
deriving DecidableEq

namespace SocialService

/-- SocialService.publishToLinkedIn: when no LinkedIn account row exists for
the user the result is a failure with error LinkedIn account not connected;
otherwise the LinkedIn client createPost is called, an ok giving success with
the platform post id and a thrown error being caught into a failure carrying
the message. -/
def publishToLinkedIn (accountLinked : Bool)
    (createPost : Except String String) : SocialPostResult :=
  if !accountLinked then
    { platform := SocialPlatform.linkedin, success := false
      postId := none, error := some "LinkedIn account not connected" }
  else
    match createPost with
    | Except.ok pid =>
        { platform := SocialPlatform.linkedin, success := true
          postId := some pid, error := none }
    | Except.error e =>
        { platform := SocialPlatform.linkedin, success := false
          postId := none, error := some e }

/-- SocialService.publishToFacebook: same shape as publishToLinkedIn with the
Facebook account and client. -/
def publishToFacebook (accountLinked : Bool)
    (createPost : Except String String) : SocialPostResult :=
  if !accountLinked then
    { platform := SocialPlatform.facebook, success := false
      postId := none, error := some "Facebook account not connected" }
  else
    match createPost with
    | Except.ok pid =>
        { platform := SocialPlatform.facebook, success := true
          postId := some pid, error := none }
    | Except.error e =>
        { platform := SocialPlatform.facebook, success := false
          postId := none, error := some e }

/-- The account-not-connected message of the platform publish helpers. -/
def notConnectedMessage : SocialPlatform → String
  | SocialPlatform.linkedin => "LinkedIn account not connected"
  | SocialPlatform.facebook => "Facebook account not connected"

/-- SocialService.publishSocialPost, on a post that was found: the
already-posted guard throws Post already published; otherwise the platform
helper runs and the post row is updated from its result: success gives
status posted with postedAt stamped and platformPostId stored, failure gives
status failed with errorMessage stored.  Returns the result together with
the updated post row. -/
def publishSocialPost (post : SocialPost) (now : Int) (accountLinked : Bool)
    (createPost : Except String String) :
    Except String (SocialPostResult × SocialPost) :=
  if post.status == PostStatus.posted then
    Except.error "Post already published"
  else
    let result :=
      match post.platform with
      | SocialPlatform.linkedin => publishToLinkedIn accountLinked createPost
      | SocialPlatform.facebook => publishToFacebook accountLinked createPost
    if result.success then
      Except.ok (result,
        { post with
            status := PostStatus.posted
            platformPostId := result.postId
            postedAt := some now })
    else
      Except.ok (result,
        { post with status := PostStatus.failed, errorMessage := result.error })

/-- SocialService.updateSocialPost, on a post that was found: posted content
cannot be edited; otherwise the provided content and status fields are
applied and the post saved. -/
def updateSocialPost (post : SocialPost) (newContent : Option String)
    (newStatus : Option PostStatus) : Except String SocialPost :=
  if post.status == PostStatus.posted then
    Except.error "Cannot edit already posted content"
  else
    Except.ok
      { post with
          content := newContent.getD post.content
          status := newStatus.getD post.status }

/-- SocialService.deleteSocialPost, on a post that was found: posted content
cannot be deleted; otherwise the post row is removed from the table. -/
def deleteSocialPost (posts : List SocialPost) (post : SocialPost) :
    Except String (List SocialPost) :=
  if post.status == PostStatus.posted then
    Except.error "Cannot delete already posted content"
  else
    Except.ok (posts.filter (fun q => q.id != post.id))

end SocialService

/-
  Claims.
-/

/-- The default Bull backoff of bull.config.ts defaultJobOptions: exponential
with base delay 2000 ms (attempts 3). -/
def bullConfigBackoff : BackoffPolicy :=
  { type := BackoffType.exponential, delay := 2000 }

/-- A concrete active job carrying the default Bull options, one attempt
already made. -/
def sampleActiveJob : Job :=
  { id := 1, kind := "create-bot", resourceId := "m1"
    state := JobState.active, attemptsMade := 1, maxAttempts := 3
    backoff := bullConfigBackoff, runAt := 0, failureReason := none }

/-- Claim C1: when a job handler signals failure, the store fail operation on
the active job retries with backoff while attempts remain, incrementing
attemptsMade, returning the job to the delayed state with its runAt delayed
by the policy delay (fixed: the constant baseDelay; exponential: baseDelay
times 2 to the attemptsMade at failure time); with no attempts left it
transitions the job to failed and records failureReason. -/
theorem fail_retries_with_backoff_then_fails (j : Job) (now : Int)
    (reason : String) (hact : j.state = JobState.active) :
    (j.attemptsMade + 1 < j.maxAttempts →
      (JobStore.fail j now reason).attemptsMade = j.attemptsMade + 1 ∧
      (JobStore.fail j now reason).state = JobState.delayed ∧
      (JobStore.fail j now reason).runAt =
        now + (JobStore.backoffDelay j.backoff j.attemptsMade : Int) ∧
      (j.backoff.type = BackoffType.fixed →
        JobStore.backoffDelay j.backoff j.attemptsMade = j.backoff.delay) ∧
      (j.backoff.type = BackoffType.exponential →
        JobStore.backoffDelay j.backoff j.attemptsMade
          = j.backoff.delay * 2 ^ j.attemptsMade)) ∧
    (¬ j.attemptsMade + 1 < j.maxAttempts →
      (JobStore.fail j now reason).state = JobState.failed ∧
      (JobStore.fail j now reason).failureReason = some reason) := by
  refine ⟨fun h => ?_, fun h => ?_⟩
  · refine ⟨by simp [JobStore.fail, hact, h], by simp [JobStore.fail, hact, h],
      by simp [JobStore.fail, hact, h], fun ht => ?_, fun ht => ?_⟩ <;>
      simp [JobStore.backoffDelay, ht]
  · constructor <;> simp [JobStore.fail, hact, h]

/-- Claim C1 witness: the default Bull options (attempts 3, exponential with
base 2000 ms) on an active job with one attempt made: the job is retried,
delayed, with attemptsMade 2 and runAt pushed out by 2000 * 2 ms. -/
theorem fail_retries_with_backoff_then_fails_witness :
    (JobStore.fail sampleActiveJob 10 "boom").state = JobState.delayed ∧
    (JobStore.fail sampleActiveJob 10 "boom").attemptsMade = 2 ∧
    (JobStore.fail sampleActiveJob 10 "boom").runAt = 10 + 4000 := by
  have h :=
    (fail_retries_with_backoff_then_fails sampleActiveJob 10 "boom"
      (by decide)).1 (by decide)
  refine ⟨h.2.1, ?_, ?_⟩
  · rw [h.1]; decide
  · rw [h.2.2.1]; decide

/-- A concrete job that exhausted its attempts and sits in the failed
state. -/
def sampleFailedJob : Job :=
  { id := 2, kind := "create-bot", resourceId := "m2"
    state := JobState.failed, attemptsMade := 2, maxAttempts := 3
    backoff := bullConfigBackoff, runAt := 0, failureReason := some "boom" }

/-- Claim C2 counterexample: the every-30-minutes sweep and the retry-failed
endpoint both call JobsService.retryFailedJobs, which re-submits every failed
job of the queue: a failed job leaves the failed state and is waiting again,
so the failed state is not terminal under every subsequent operation of the
system. -/
theorem retry_sweep_revives_failed_job :
    (JobsService.retryFailedJobs [sampleFailedJob]).map Job.state
        = [JobState.waiting] ∧
      JobState.waiting ≠ JobState.failed := by decide

/-- Claim C2 amended: attemptsMade never exceeds maxAttempts (the fail
operation preserves the bound, and no other operation touches the counter),
and a failed job is terminal under the store operations driven by the
dispatcher: it is never eligible for claiming, claimNext on a queue holding
only that job claims nothing, and complete and fail leave it unchanged.  The
periodic retry sweep and the retry-failed endpoint are the exception: they
move every failed job back to the waiting state, so failed is not terminal
under them. -/
theorem attempts_bounded_and_failed_terminal_for_dispatcher (j k : Job)
    (now : Int) (reason : String) (hk : k.attemptsMade ≤ k.maxAttempts)
    (hj : j.state = JobState.failed) :
    ((JobStore.fail k now reason).attemptsMade
        ≤ (JobStore.fail k now reason).maxAttempts) ∧
    JobStore.eligibleJob now j = false ∧
    (JobStore.claimNext [j] now).1 = none ∧
    JobStore.complete j = j ∧
    JobStore.fail j now reason = j ∧
    (JobStore.retryJob j).state = JobState.waiting := by
  refine ⟨?_, ?_, ?_, ?_, ?_, ?_⟩
  · unfold JobStore.fail
    split
    · split <;> simp <;> omega
    · simpa using hk
  · simp [JobStore.eligibleJob, hj]
  · have helig : JobStore.eligibleJob now j = false := by
      simp [JobStore.eligibleJob, hj]
    simp [JobStore.claimNext, List.find?, helig]
  · simp [JobStore.complete, hj]
  · simp [JobStore.fail, hj]
  · simp [JobStore.retryJob, hj]

/-- Claim C2 amended witness: at the concrete active job with one of three
attempts made and the concrete failed job: the bound is kept after a failure
and the failed job is left untouched by claim, complete and fail while retry
moves it to waiting. -/
theorem attempts_bounded_and_failed_terminal_for_dispatcher_witness :
    ((JobStore.fail sampleActiveJob 0 "boom").attemptsMade
        ≤ (JobStore.fail sampleActiveJob 0 "boom").maxAttempts) ∧
    JobStore.eligibleJob 0 sampleFailedJob = false ∧
    (JobStore.claimNext [sampleFailedJob] 0).1 = none ∧
    JobStore.complete sampleFailedJob = sampleFailedJob ∧
    JobStore.fail sampleFailedJob 0 "boom" = sampleFailedJob ∧
    (JobStore.retryJob sampleFailedJob).state = JobState.waiting :=
  attempts_bounded_and_failed_terminal_for_dispatcher sampleFailedJob
    sampleActiveJob 0 "boom" (by decide) (by decide)

/-- The predicate counting pending or running create-bot jobs for a given
meeting id. -/
def pendingBotJobFor (meetingId : String) (j : Job) : Bool :=
  j.kind == "create-bot" && j.resourceId == meetingId && nonTerminal j.state

/-- Claim C3 counterexample: JobsService.scheduleMeetingBot checks nothing
before queue.add; two enqueue calls for meeting m1 before either runs leave
two coexisting non-terminal create-bot jobs for m1 in the queue. -/
theorem duplicate_bot_jobs_coexist :
    (JobsService.scheduleMeetingBot
        (JobsService.scheduleMeetingBot [] 0 0 "m1" 600000) 1 0 "m1" 600000).countP
      (pendingBotJobFor "m1") = 2 := by decide

/-- Claim C3 amended: no one-active-job-per-resource invariant is enforced
anywhere: every scheduleMeetingBot call unconditionally adds one more
non-terminal create-bot job for the meeting, whatever the queue already
holds, so duplicate pending bot-creation jobs for the same meeting can
coexist. -/
theorem scheduleMeetingBot_never_deduplicates (store : List Job) (nextId : Nat)
    (now : Int) (meetingId : String) (scheduledTime : Int) :
    (JobsService.scheduleMeetingBot store nextId now meetingId
        scheduledTime).countP (pendingBotJobFor meetingId)
      = store.countP (pendingBotJobFor meetingId) + 1 := by
  unfold JobsService.scheduleMeetingBot
  rw [List.countP_append]
  have hone :
      (List.countP (pendingBotJobFor meetingId)
        [{ id := nextId
           kind := "create-bot"
           resourceId := meetingId
           state := if 0 < max 0 (scheduledTime - now) then JobState.delayed
             else JobState.waiting
           attemptsMade := 0
           maxAttempts := 3
           backoff := { type := BackoffType.exponential, delay := 5000 }
           runAt := now + max 0 (scheduledTime - now)
           failureReason := none }]) = 1 := by
    rw [List.countP_cons, List.countP_nil]
    simp only [pendingBotJobFor, nonTerminal]
    split <;> simp
  rw [hone]

/-- A concrete meeting starting 10 minutes after now = 0, recall enabled,
scheduled, no bot assigned. -/
def meetingInTenMinutes : Meeting :=
  { id := "m1", userId := "u1", title := "standup", startTime := 600000
    status := MeetingStatus.scheduled, recallEnabled := true
    recallBotId := none, transcript := none }

/-- Claim C4 counterexample: at now = 0 a meeting starting in 10 minutes with
recallEnabled and no bot gets no create-bot job at all from one run of the
sweep (not exactly one with a past runAt): the query window is
now + 20 min to now + 35 min, so the meeting is not selected, and the loop
guard would in any case skip it because its bot schedule time (start minus
15 min) is already past. -/
theorem sweep_skips_meeting_starting_in_ten_minutes :
    ScheduledTasksService.scheduleUpcomingMeetingBots
        [meetingInTenMinutes] [] 0 = [] ∧
      ScheduledTasksService.scheduleBotsLoop 0 [meetingInTenMinutes] [] = [] := by
  decide

/-- Claim C4 amended: the sweep selects meetings starting between now plus
20 minutes and now plus 35 minutes, and only enqueues when the bot schedule
time (start minus 15 minutes) is still in the future; for such a meeting with
recallEnabled, scheduled status and no bot, one run enqueues exactly one
create-bot job, delayed, with runAt equal to start minus 15 minutes, a time
in the future rather than in the past. -/
theorem sweep_enqueues_one_delayed_future_job (m : Meeting) (now : Int)
    (h1 : m.recallEnabled = true) (h2 : m.status = MeetingStatus.scheduled)
    (h3 : m.recallBotId = none)
    (h4 : now + 20 * 60000 ≤ m.startTime)
    (h5 : m.startTime ≤ now + 35 * 60000) :
    ScheduledTasksService.scheduleUpcomingMeetingBots [m] [] now
        = [{ id := 0, kind := "create-bot", resourceId := m.id
             state := JobState.delayed, attemptsMade := 0, maxAttempts := 3
             backoff := { type := BackoffType.exponential, delay := 5000 }
             runAt := m.startTime - 15 * 60000, failureReason := none }]
      ∧ now < m.startTime - 15 * 60000 := by
  have hrun : now < m.startTime - 15 * 60000 := by omega
  have d1 : decide (now + 20 * 60000 ≤ m.startTime) = true := decide_eq_true h4
  have d2 : decide (m.startTime ≤ now + 20 * 60000 + 15 * 60000) = true :=
    decide_eq_true (by omega)
  have hsel : MeetingsService.getMeetingsForBotScheduling [m] now 20 = [m] := by
    simp [MeetingsService.getMeetingsForBotScheduling, h1, h2, h3, d1, d2]
    omega
  have hmax : max 0 (m.startTime - 15 * 60000 - now)
      = m.startTime - 15 * 60000 - now :=
    max_eq_right (by omega)
  refine ⟨?_, hrun⟩
  unfold ScheduledTasksService.scheduleUpcomingMeetingBots
  rw [hsel]
  unfold ScheduledTasksService.scheduleBotsLoop
  rw [if_pos h1, if_pos hrun]
  unfold ScheduledTasksService.scheduleBotsLoop
  simp [JobsService.scheduleMeetingBot, hmax]
  constructor <;> omega

/-- A concrete meeting starting exactly 20 minutes after now = 0, the lower
edge of the query window. -/
def meetingInTwentyMinutes : Meeting :=
  { id := "m20", userId := "u1", title := "sync", startTime := 1200000
    status := MeetingStatus.scheduled, recallEnabled := true
    recallBotId := none, transcript := none }

/-- Claim C4 amended witness: at now = 0 the meeting starting in 20 minutes
gets exactly one delayed create-bot job with runAt 300000 ms (its start minus
15 minutes), which is in the future. -/
theorem sweep_enqueues_one_delayed_future_job_witness :
    ScheduledTasksService.scheduleUpcomingMeetingBots
          [meetingInTwentyMinutes] [] 0
        = [{ id := 0, kind := "create-bot"
             resourceId := meetingInTwentyMinutes.id
             state := JobState.delayed, attemptsMade := 0, maxAttempts := 3
             backoff := { type := BackoffType.exponential, delay := 5000 }
             runAt := meetingInTwentyMinutes.startTime - 15 * 60000
             failureReason := none }]
      ∧ (0:Int) < meetingInTwentyMinutes.startTime - 15 * 60000 :=
  sweep_enqueues_one_delayed_future_job meetingInTwentyMinutes 0 (by decide)
    (by decide) (by decide) (by decide) (by decide)

/-- Claim C5: when a waiting or delayed job of the queue matches the cancel
target, cancelMeetingBot and cancelSocialPost remove it (so a subsequent
claimNext never returns a job with its id) and return true; when no waiting
or delayed job matches (in particular when the only matching job is active),
nothing is removed and the call returns false. -/
theorem cancel_removes_pending_else_false (store : List Job) (rid : String) :
    (∀ j, (JobsService.getJobsIn store
            [JobState.waiting, JobState.delayed]).find?
          (fun k => k.resourceId == rid) = some j →
        (JobsService.cancelMeetingBot store rid).1 = true ∧
        (JobsService.cancelSocialPost store rid).1 = true ∧
        (∀ now j2,
          (JobStore.claimNext (JobsService.cancelMeetingBot store rid).2 now).1
              = some j2 → j2.id ≠ j.id) ∧
        (∀ now j2,
          (JobStore.claimNext (JobsService.cancelSocialPost store rid).2 now).1
              = some j2 → j2.id ≠ j.id)) ∧
    ((∀ k ∈ store,
        (k.state = JobState.waiting ∨ k.state = JobState.delayed) →
          k.resourceId ≠ rid) →
      JobsService.cancelMeetingBot store rid = (false, store) ∧
        JobsService.cancelSocialPost store rid = (false, store)) := by
  constructor
  · intro j hfind
    have hcm : JobsService.cancelMeetingBot store rid
        = (true, store.filter (fun k => k.id != j.id)) := by
      simp [JobsService.cancelMeetingBot, hfind]
    have hcs : JobsService.cancelSocialPost store rid
        = (true, store.filter (fun k => k.id != j.id)) := by
      simp [JobsService.cancelSocialPost, hfind]
    have key : ∀ now j2,
        (JobStore.claimNext (store.filter (fun k => k.id != j.id)) now).1
            = some j2 → j2.id ≠ j.id := by
      intro now j2 hclaim
      unfold JobStore.claimNext at hclaim
      cases hfd : (store.filter (fun k => k.id != j.id)).find?
          (JobStore.eligibleJob now) with
      | none => rw [hfd] at hclaim; simp at hclaim
      | some j0 =>
        rw [hfd] at hclaim
        simp at hclaim
        have hmem := List.mem_of_find?_eq_some hfd
        have hne := (List.mem_filter.mp hmem).2
        have hid : j2.id = j0.id := by rw [← hclaim]
        rw [hid]
        simpa using hne
    exact ⟨by rw [hcm], by rw [hcs], by rw [hcm]; exact key,
      by rw [hcs]; exact key⟩
  · intro h
    have hnone : (JobsService.getJobsIn store
          [JobState.waiting, JobState.delayed]).find?
        (fun k => k.resourceId == rid) = none := by
      apply List.find?_eq_none.mpr
      intro x hx
      simp only [JobsService.getJobsIn, List.mem_filter] at hx
      have hst : x.state = JobState.waiting ∨ x.state = JobState.delayed := by
        have := hx.2
        simp [List.contains] at this
        rcases this with h1 | h1 <;> [left; right] <;> exact h1
      have := h x hx.1 hst
      simpa using this
    constructor <;>
      simp [JobsService.cancelMeetingBot, JobsService.cancelSocialPost, hnone]

/-- A concrete waiting create-bot job for meeting m7. -/
def samplePendingJob : Job :=
  { id := 7, kind := "create-bot", resourceId := "m7"
    state := JobState.waiting, attemptsMade := 0, maxAttempts := 3
    backoff := { type := BackoffType.exponential, delay := 5000 }
    runAt := 0, failureReason := none }

/-- Claim C5 witness: cancelling meeting m7 in a queue holding its waiting
job returns true; cancelling an id with no matching pending job returns
false and leaves the queue untouched. -/
theorem cancel_removes_pending_else_false_witness :
    (JobsService.cancelMeetingBot [samplePendingJob] "m7").1 = true ∧
      JobsService.cancelMeetingBot [samplePendingJob] "zz"
        = (false, [samplePendingJob]) := by
  constructor
  · exact (((cancel_removes_pending_else_false [samplePendingJob] "m7").1
      samplePendingJob (by decide)).1)
  · refine ((cancel_removes_pending_else_false [samplePendingJob] "zz").2 ?_).1
    intro k hk hst
    have hkeq : k = samplePendingJob := by simpa using hk
    subst hkeq
    decide

/-- A 50-character transcript. -/
def shortTranscript : String :=
  "01234567890123456789012345678901234567890123456789"

/-- A concrete completed meeting whose transcript has 50 characters. -/
def meetingShortTranscript : Meeting :=
  { id := "mS", userId := "u1", title := "quick chat", startTime := 0
    status := MeetingStatus.completed, recallEnabled := true
    recallBotId := some "bot1", transcript := some shortTranscript }

/-- Claim C6 counterexample: for the meeting with the 50-character transcript
the validation error is caught inside generateContentFromMeeting and turned
into a result object with success false; the processor ignores that object
and returns normally, so the Bull job completes: it does not transition to
the failed state, and no non-retryable failure is signalled. -/
theorem short_transcript_job_completes :
    ContentGenerationProcessor.handleContentGeneration true
          (some shortTranscript) meetingShortTranscript
          [SocialPlatform.linkedin] (Except.ok ())
          (fun _ => Except.ok "text")
        = JobOutcome.completed []
      ∧ (ContentGenerationService.generateContentFromMeeting
          meetingShortTranscript [SocialPlatform.linkedin] (Except.ok ())
          (fun _ => Except.ok "text")).1.success = false := by decide

/-- Claim C6 amended: for a generate-content job on a found meeting whose
transcript is shorter than 100 characters (the payload transcriptUrl being
non-empty), validation raises the transcript-too-short error, the pipeline
catches it and returns a result with success false carrying that error, no
draft SocialPost is persisted, and the processor swallows the result object,
so the job completes rather than transitioning to failed and consumes no
further retry attempts. -/
theorem short_transcript_no_draft_job_completes (m : Meeting) (t u : String)
    (platforms : List SocialPlatform) (ins : Except String Unit)
    (gen : SocialPlatform → Except String String)
    (ht : m.transcript = some t) (hlen : t.length < 100) (hu : u.length ≠ 0) :
    (ContentGenerationService.generateContentFromMeeting m platforms
        ins gen).1.success = false ∧
    (ContentGenerationService.generateContentFromMeeting m platforms
        ins gen).1.errors
      = ["Content generation failed for meeting " ++ m.id ++ ": "
          ++ "Meeting transcript too short for meaningful content generation"] ∧
    (ContentGenerationService.generateContentFromMeeting m platforms
        ins gen).2 = [] ∧
    ContentGenerationProcessor.handleContentGeneration true (some u) m
        platforms ins gen
      = JobOutcome.completed [] := by
  have hval : ContentGenerationService.validateMeetingForContentGeneration m
      = Except.error
          "Meeting transcript too short for meaningful content generation" := by
    simp [ContentGenerationService.validateMeetingForContentGeneration, ht, hlen]
  have hgen : ContentGenerationService.generateContentFromMeeting m platforms
        ins gen
      = ({ meetingId := m.id, success := false, generated := []
           errors := ["Content generation failed for meeting " ++ m.id ++ ": "
             ++ "Meeting transcript too short for meaningful content generation"] },
         []) := by
    simp [ContentGenerationService.generateContentFromMeeting, hval]
  refine ⟨by rw [hgen], by rw [hgen], by rw [hgen], ?_⟩
  simp [ContentGenerationProcessor.handleContentGeneration, hu, hgen]

/-- Claim C6 amended witness: at the concrete 50-character transcript meeting
no draft is persisted and the job completes. -/
theorem short_transcript_no_draft_job_completes_witness :
    (ContentGenerationService.generateContentFromMeeting meetingShortTranscript
          [SocialPlatform.linkedin] (Except.ok ())
          (fun _ => Except.ok "text")).2 = []
      ∧ ContentGenerationProcessor.handleContentGeneration true
          (some shortTranscript) meetingShortTranscript
          [SocialPlatform.linkedin] (Except.ok ()) (fun _ => Except.ok "text")
        = JobOutcome.completed [] := by
  have h := short_transcript_no_draft_job_completes meetingShortTranscript
    shortTranscript shortTranscript [SocialPlatform.linkedin] (Except.ok ())
    (fun _ => Except.ok "text") rfl (by decide) (by decide)
  exact ⟨h.2.2.1, h.2.2.2⟩

/-- Claim C7: publishing a post that is not yet posted: with the platform
account unlinked the post becomes failed with the not-connected error
recorded; with the account linked a publisher error leaves the post failed
with the error message recorded; a publisher success leaves it posted with
postedAt stamped and the returned platform post id stored. -/
theorem publish_updates_post_by_result (post : SocialPost) (now : Int)
    (linked : Bool) (createPost : Except String String)
    (hnp : post.status ≠ PostStatus.posted) :
    (linked = false →
      SocialService.publishSocialPost post now linked createPost
        = Except.ok
          ({ platform := post.platform, success := false, postId := none
             error := some (SocialService.notConnectedMessage post.platform) },
           { post with
               status := PostStatus.failed
               errorMessage :=
                 some (SocialService.notConnectedMessage post.platform) })) ∧
    (∀ e, linked = true → createPost = Except.error e →
      SocialService.publishSocialPost post now linked createPost
        = Except.ok
          ({ platform := post.platform, success := false, postId := none
             error := some e },
           { post with status := PostStatus.failed, errorMessage := some e })) ∧
    (∀ pid, linked = true → createPost = Except.ok pid →
      SocialService.publishSocialPost post now linked createPost
        = Except.ok
          ({ platform := post.platform, success := true, postId := some pid
             error := none },
           { post with
               status := PostStatus.posted
               platformPostId := some pid
               postedAt := some now })) := by
  have hb : (post.status == PostStatus.posted) = false := by
    simpa using hnp
  refine ⟨?_, ?_, ?_⟩
  · intro hl
    subst hl
    cases hp : post.platform <;>
      simp [SocialService.publishSocialPost, SocialService.publishToLinkedIn,
        SocialService.publishToFacebook, SocialService.notConnectedMessage,
        hb, hp]
  · intro e hl hc
    subst hl
    subst hc
    cases hp : post.platform <;>
      simp [SocialService.publishSocialPost, SocialService.publishToLinkedIn,
        SocialService.publishToFacebook, hb, hp]
  · intro pid hl hc
    subst hl
    subst hc
    cases hp : post.platform <;>
      simp [SocialService.publishSocialPost, SocialService.publishToLinkedIn,
        SocialService.publishToFacebook, hb, hp]

/-- A concrete LinkedIn draft post. -/
def sampleDraftPost : SocialPost :=
  { id := "p1", meetingId := "m1", platform := SocialPlatform.linkedin
    content := "Great insights from the sync meeting"
    status := PostStatus.draft, postedAt := none, platformPostId := none
    errorMessage := none }

/-- Claim C7 witness: publishing the draft LinkedIn post with the account
linked and the publisher succeeding marks it posted, stamps postedAt and
stores the platform post id. -/
theorem publish_updates_post_by_result_witness :
    SocialService.publishSocialPost sampleDraftPost 99 true
        (Except.ok "urn:li:123")
      = Except.ok
        ({ platform := sampleDraftPost.platform, success := true
           postId := some "urn:li:123", error := none },
         { sampleDraftPost with
             status := PostStatus.posted
             platformPostId := some "urn:li:123"
             postedAt := some 99 }) :=
  (publish_updates_post_by_result sampleDraftPost 99 true
    (Except.ok "urn:li:123") (by decide)).2.2 "urn:li:123" rfl rfl

/-- A platform whose generation succeeds contributes its content to the
successes of the per-platform loop, whatever the other platforms do. -/
theorem mem_generateForPlatforms (gen : SocialPlatform → Except String String)
    (platforms : List SocialPlatform) (p : SocialPlatform) (c : String)
    (hp : p ∈ platforms) (hc : gen p = Except.ok c) :
    (⟨p, c⟩ : GeneratedContent)
      ∈ (ContentGenerationService.generateForPlatforms gen platforms).1 := by
  induction platforms with
  | nil => cases hp
  | cons q qs ih =>
    rcases List.mem_cons.mp hp with hq | hq
    · subst hq
      simp [ContentGenerationService.generateForPlatforms, hc]
    · cases hg : gen q with
      | ok c2 =>
        simp only [ContentGenerationService.generateForPlatforms, hg]
        exact List.mem_cons_of_mem _ (ih hq)
      | error e =>
        simp only [ContentGenerationService.generateForPlatforms, hg]
        exact ih hq

/-- Claim C8: in a content-generation run over the requested platforms on a
meeting with a usable transcript, every platform whose generation succeeds
has its content persisted as a draft SocialPost, even when generation for
other platforms of the same run fails. -/
theorem generated_platform_persisted_as_draft (m : Meeting) (t : String)
    (platforms : List SocialPlatform)
    (gen : SocialPlatform → Except String String) (p : SocialPlatform)
    (c : String) (ht : m.transcript = some t) (hlen : 100 ≤ t.length)
    (hp : p ∈ platforms) (hc : gen p = Except.ok c) :
    ({ id := "", meetingId := m.id, platform := p, content := c
       status := PostStatus.draft, postedAt := none, platformPostId := none
       errorMessage := none } : SocialPost)
      ∈ (ContentGenerationService.generateContentFromMeeting m platforms
          (Except.ok ()) gen).2 := by
  have hval : ContentGenerationService.validateMeetingForContentGeneration m
      = Except.ok m := by
    simp [ContentGenerationService.validateMeetingForContentGeneration, ht]
    omega
  have h2 : (ContentGenerationService.generateContentFromMeeting m platforms
        (Except.ok ()) gen).2
      = ContentGenerationService.saveDraftPosts m
          (ContentGenerationService.generateForPlatforms gen platforms).1 := by
    simp [ContentGenerationService.generateContentFromMeeting, hval]
  rw [h2]
  exact List.mem_map_of_mem _ (mem_generateForPlatforms gen platforms p c hp hc)

/-- A 100-character transcript. -/
def longTranscript : String :=
  "0123456789012345678901234567890123456789012345678901234567890123456789012345678901234567890123456789"

/-- A concrete completed meeting with a 100-character transcript. -/
def meetingLongTranscript : Meeting :=
  { id := "mL", userId := "u1", title := "roadmap review", startTime := 0
    status := MeetingStatus.completed, recallEnabled := true
    recallBotId := some "bot2", transcript := some longTranscript }

/-- A generation outcome where LinkedIn succeeds and Facebook fails. -/
def mixedGen : SocialPlatform → Except String String
  | SocialPlatform.linkedin => Except.ok "linkedin post"
  | SocialPlatform.facebook => Except.error "rate limited"

/-- Claim C8 witness: with LinkedIn succeeding and Facebook failing in the
same run, the LinkedIn draft is persisted. -/
theorem generated_platform_persisted_as_draft_witness :
    ({ id := "", meetingId := meetingLongTranscript.id
       platform := SocialPlatform.linkedin, content := "linkedin post"
       status := PostStatus.draft, postedAt := none, platformPostId := none
       errorMessage := none } : SocialPost)
      ∈ (ContentGenerationService.generateContentFromMeeting
          meetingLongTranscript [SocialPlatform.linkedin, SocialPlatform.facebook]
          (Except.ok ()) mixedGen).2 :=
  generated_platform_persisted_as_draft meetingLongTranscript longTranscript
    [SocialPlatform.linkedin, SocialPlatform.facebook] mixedGen
    SocialPlatform.linkedin "linkedin post" rfl (by decide) (by decide) rfl

/-- A concrete meeting inside the sweep query window at now = 0. -/
def sweepMeetingA : Meeting :=
  { id := "a", userId := "u1", title := "first", startTime := 1200000
    status := MeetingStatus.scheduled, recallEnabled := true
    recallBotId := none, transcript := none }

/-- A second concrete meeting inside the sweep query window at now = 0. -/
def sweepMeetingB : Meeting :=
  { id := "b", userId := "u2", title := "second", startTime := 1260000
    status := MeetingStatus.scheduled, recallEnabled := true
    recallBotId := none, transcript := none }

/-- An enqueue collaborator that throws for meeting a and succeeds for every
other meeting. -/
def failOnA : Meeting → Except String Unit :=
  fun m =>
    if m.id == "a" then Except.error "redis connection lost" else Except.ok ()

/-- Claim C9 counterexample: both meetings are selected by the sweep and the
enqueue for meeting b would succeed, but the enqueue for meeting a throws
first and the single try/catch wrapped around the whole for-loop swallows
the error only after the loop has aborted, so meeting b is not processed in
that run. -/
theorem sweep_failure_skips_remaining_items :
    sweepMeetingB ∈ MeetingsService.getMeetingsForBotScheduling
          [sweepMeetingA, sweepMeetingB] 0 20
      ∧ failOnA sweepMeetingB = Except.ok ()
      ∧ ScheduledTasksService.runBotSweep [sweepMeetingA, sweepMeetingB] 0
          failOnA = [] :=
  ⟨by decide, rfl, by decide⟩

/-- Claim C9 amended: sweep failures are caught and logged once per run, at
the level of the whole loop, so the scheduler survives and later runs
proceed, but the remaining items of the same run are skipped after the first
failing item; only when no item fails is every selected meeting processed in
the run. -/
theorem sweep_processes_all_when_no_failure (meetings : List Meeting)
    (now : Int) (enq : Meeting → Except String Unit)
    (h : ∀ m, enq m = Except.ok ()) :
    ScheduledTasksService.runBotSweep meetings now enq
      = MeetingsService.getMeetingsForBotScheduling meetings now 20 := by
  unfold ScheduledTasksService.runBotSweep
  generalize MeetingsService.getMeetingsForBotScheduling meetings now 20 = l
  induction l with
  | nil => rfl
  | cons m ms ih =>
    simp only [ScheduledTasksService.sweepIterations, h m]
    split <;> rw [ih]

/-- Claim C9 amended witness: with an enqueue that never fails, one run over
the two window meetings processes both of them. -/
theorem sweep_processes_all_when_no_failure_witness :
    ScheduledTasksService.runBotSweep [sweepMeetingA, sweepMeetingB] 0
        (fun _ => Except.ok ())
      = MeetingsService.getMeetingsForBotScheduling
          [sweepMeetingA, sweepMeetingB] 0 20 :=
  sweep_processes_all_when_no_failure [sweepMeetingA, sweepMeetingB] 0
    (fun _ => Except.ok ()) (fun _ => rfl)

/-- Claim C10: a posted SocialPost is terminal under the public service
operations: publish raises Post already published, update raises Cannot edit
already posted content, delete raises Cannot delete already posted content,
and in each case no updated record or modified table is produced. -/
theorem posted_post_terminal (post : SocialPost) (posts : List SocialPost)
    (now : Int) (linked : Bool) (createPost : Except String String)
    (newContent : Option String) (newStatus : Option PostStatus)
    (h : post.status = PostStatus.posted) :
    SocialService.publishSocialPost post now linked createPost
        = Except.error "Post already published" ∧
      SocialService.updateSocialPost post newContent newStatus
        = Except.error "Cannot edit already posted content" ∧
      SocialService.deleteSocialPost posts post
        = Except.error "Cannot delete already posted content" := by
  refine ⟨?_, ?_, ?_⟩ <;>
    simp [SocialService.publishSocialPost, SocialService.updateSocialPost,
      SocialService.deleteSocialPost, h]

/-- A concrete already-posted Facebook post. -/
def samplePostedPost : SocialPost :=
  { id := "p9", meetingId := "m1", platform := SocialPlatform.facebook
    content := "published content", status := PostStatus.posted
    postedAt := some 50, platformPostId := some "fb:9", errorMessage := none }

/-- Claim C10 witness: the posted post cannot be republished, edited or
deleted. -/
theorem posted_post_terminal_witness :
    SocialService.publishSocialPost samplePostedPost 99 true (Except.ok "x")
        = Except.error "Post already published" ∧
      SocialService.updateSocialPost samplePostedPost (some "edit") none
        = Except.error "Cannot edit already posted content" ∧
      SocialService.deleteSocialPost [samplePostedPost] samplePostedPost
        = Except.error "Cannot delete already posted content" :=
  posted_post_terminal samplePostedPost [samplePostedPost] 99 true
    (Except.ok "x") (some "edit") none rfl

end AfterMeet
